import Mathlib

/-!
Shallow embedding of the concurrent audio dispatch engine of listen-2-me.

Embedded components (each definition mirrors the named Python source):
* `AudioEvent`, `mkAudioEvent`  — src/listen2me/models/events.py
* `TranscriptionTask`, `ConsumerState`, `on_audio_chunk`,
  `copy_and_clear_audio_buffer`  — src/listen2me/transcription/consumers.py
* `shutdownModel`               — TranscriptionAudioConsumer.shutdown
* `transcribe_chunk`            — src/listen2me/transcription/google_backend.py
* `AggState`, `agg_on_result`   — src/listen2me/transcription/aggregator.py
* heap-cell consumer (`HConsumer`) — the same handler with explicit object
  identity of the mutable `bytearray` / `list` accumulators, to state
  aliasing properties.

Bytes are modelled as `List Nat`, Python floats used for audio timekeeping
as `ℚ` (exact arithmetic; the code performs no operation whose rational and
float results are distinguished by any claim checked here).
-/

/-- `AudioEvent` from src/listen2me/models/events.py (field for field;
`audio_data : bytes` becomes `List Nat`, float timestamps become `ℚ`). -/
structure AudioEvent where
  chunk_id : String
  audio_data : List Nat
  timestamp : ℚ
  sequence_number : Nat
  sample_rate : Nat := 16000
  channels : Nat := 1
  chunk_duration_ms : Option Int := none
  final : Bool := false
deriving DecidableEq, Repr

/-- `AudioEvent.__post_init__`: if `chunk_duration_ms` is `None` and
`audio_data` is truthy (non-empty), derive the duration as
`int(len(audio_data) / (sample_rate * channels * 2) * 1000)`; the value is
non-negative, so Python's truncating `int` is the floor. -/
def mkAudioEvent (chunk_id : String) (audio_data : List Nat) (timestamp : ℚ)
    (sequence_number : Nat) (sample_rate : Nat) (channels : Nat)
    (chunk_duration_ms : Option Int) (final : Bool) : AudioEvent :=
  let derived : Option Int :=
    if chunk_duration_ms = none ∧ audio_data ≠ [] then
      some ⌊((audio_data.length : ℚ) / ((sample_rate : ℚ) * (channels : ℚ) * 2)) * 1000⌋
    else chunk_duration_ms
  { chunk_id := chunk_id, audio_data := audio_data, timestamp := timestamp,
    sequence_number := sequence_number, sample_rate := sample_rate,
    channels := channels, chunk_duration_ms := derived, final := final }

/-- `TranscriptionTask` (consumers.py): the frames, their concatenated
bytes, and the final flag captured at flush time. -/
structure TranscriptionTask where
  audio_events : List AudioEvent
  audio_buffer : List Nat
  is_final : Bool
deriving DecidableEq, Repr

/-- The mutable state of a `TranscriptionAudioConsumer` that
`on_audio_chunk` touches.  `task_queue` records the tasks in enqueue order
(the code's `queue.Queue()` has no `maxsize`, hence no bound is modelled).  -/
structure ConsumerState where
  trigger_chunks : Nat
  audio_buffer : List Nat
  audio_events : List AudioEvent
  chunk_start_time : Option ℚ
  chunks_in_buffer : Nat
  task_queue : List TranscriptionTask
  shutdown_is_set : Bool
deriving DecidableEq, Repr

/-- `queue.Queue()` in `TranscriptionAudioConsumer.__init__` is constructed
with the default `maxsize = 0`, which the `queue` module documents as an
infinite queue whose `put` never blocks. -/
def task_queue_maxsize : Nat := 0

/-- The consumer state right after `__init__` (empty buffers, empty queue,
shutdown event not set). -/
def initConsumer (trigger_chunks : Nat) : ConsumerState :=
  { trigger_chunks := trigger_chunks, audio_buffer := [], audio_events := [],
    chunk_start_time := none, chunks_in_buffer := 0, task_queue := [],
    shutdown_is_set := false }

/-- `TranscriptionAudioConsumer.on_audio_chunk`.  The flush branch inlines
`_copy_and_clear_audio_buffer`: the task captures the current buffer values
(`list.copy()` / `bytes(...)`) and the accumulators are reset. -/
def on_audio_chunk (s : ConsumerState) (event : AudioEvent) : ConsumerState :=
  if s.shutdown_is_set then s
  else
    let s1 : ConsumerState :=
      { s with
        audio_events := s.audio_events ++ [event],
        audio_buffer := s.audio_buffer ++ event.audio_data,
        chunks_in_buffer :=
          if 0 < event.audio_data.length then s.chunks_in_buffer + 1
          else s.chunks_in_buffer,
        chunk_start_time :=
          match s.chunk_start_time with
          | none => some event.timestamp
          | some t => some t }
    if s1.trigger_chunks ≤ s1.chunks_in_buffer ∨
        (event.final = true ∧ 0 < s1.chunks_in_buffer) then
      { s1 with
        audio_events := [], audio_buffer := [], chunks_in_buffer := 0,
        chunk_start_time := none,
        task_queue :=
          s1.task_queue ++
            [{ audio_events := s1.audio_events, audio_buffer := s1.audio_buffer,
               is_final := event.final }] }
    else s1

/-- Deliver a sequence of frames to the handler, in order. -/
def runConsumer (s : ConsumerState) (fs : List AudioEvent) : ConsumerState :=
  fs.foldl on_audio_chunk s

/-- Number of non-empty frames in a list (the quantity `chunks_in_buffer`
counts). -/
def nonEmptyCount (fs : List AudioEvent) : Nat :=
  (fs.filter (fun f => 0 < f.audio_data.length)).length

/-- Concatenation of the pcm bytes of all frames, in order. -/
def concatBytes (fs : List AudioEvent) : List Nat :=
  (fs.map AudioEvent.audio_data).flatten

/-- Concatenation of the captured byte buffers of all dispatched tasks, in
dispatch order. -/
def dispatchedBytes (s : ConsumerState) : List Nat :=
  (s.task_queue.map TranscriptionTask.audio_buffer).flatten

/-! ## `TranscriptionAudioConsumer.shutdown` (consumers.py lines 183-227)

The method sets the shutdown event, polls once a second up to `timeout`
for the queue to drain (`poll i` tells whether the queue is observed empty
with no unfinished tasks at the `i`-th poll), posts one sentinel per
worker, joins each worker briefly, and then executes the unconditional
`return True`. -/

/-- Outcome of `shutdown`: whether the poll loop exited via `break`
(queue drained before the timeout), how many sentinels were posted, and
the value the method returns. -/
structure ShutdownOutcome where
  drained_in_time : Bool
  sentinels_posted : Nat
  returned : Bool
deriving DecidableEq, Repr

/-- `TranscriptionAudioConsumer.shutdown`, with the queue observations at
each one-second poll abstracted as `poll` and the timeout as a number of
polls.  Whatever the loop observed, the function falls through to
`return True`. -/
def shutdownModel (poll : Nat → Bool) (timeout_polls : Nat)
    (num_workers : Nat) : ShutdownOutcome :=
  { drained_in_time := (List.range timeout_polls).any poll,
    sentinels_posted := num_workers,
    returned := true }

/-! ## Google speech backend (google_backend.py) -/

/-- One recognition alternative of the Google response (`transcript`,
`confidence`). -/
structure SpeechAlternative where
  transcript : String
  confidence : ℚ
deriving DecidableEq, Repr

/-- One element of `response.results`. -/
structure SpeechRecognitionResult where
  alternatives : List SpeechAlternative
deriving DecidableEq, Repr

/-- What a call to `self.client.recognize` did: returned a response with a
list of results, or raised an exception of the named type (deadline
exceeded, service unavailable, API error, ...). -/
inductive RecognizeCall where
  | success (results : List SpeechRecognitionResult)
  | failure (exc_type_name : String)
deriving DecidableEq, Repr

/-- The `TranscriptionResult` dataclass
(src/listen2me/models/transcription.py / transcription/base.py).
The wall-clock `timestamp: datetime` field is carried as `ℚ`. -/
structure TranscriptionResult where
  text : String
  confidence : ℚ
  processing_time : ℚ
  timestamp : ℚ
  service : String
  language : String := "en-US"
  alternatives : Option (List SpeechAlternative) := none
  is_final : Bool := true
  chunk_id : Option String := none
  audio_start_time : Option ℚ := none
  audio_end_time : Option ℚ := none
  transcription_mode : String := "realtime"
deriving DecidableEq, Repr

/-- The no-speech marker string used by downstream filters
(aggregator.py line 134). -/
def no_speech_marker : String := "[NO_SPEECH_DETECTED]"

/-- `GoogleSpeechBackend.transcribe_chunk`, as a function of what the
recognize call did.  `chunk_id` stands for the internally generated
`"google_<ms>"` id and `processing_time`/`now` for the wall-clock readings.
Branches, in source order:
* recognize raised: the `except` clause catches it and returns the error
  result `text = "[ERROR: <type>]"`, `confidence = 0`;
* `response.results` empty: the no-speech result `text = ""`,
  `confidence = 0`;
* otherwise `results[0].alternatives[0]` is read (an empty alternatives
  list would raise `IndexError`, also caught by the same `except` clause);
  up to four further alternatives (`alternatives[1:5]`) are attached, an
  empty slice becoming `None`. -/
def transcribe_chunk (chunk_id : String) (call : RecognizeCall)
    (processing_time now : ℚ) (service_name language : String) :
    TranscriptionResult :=
  match call with
  | .failure exc_type_name =>
      { text := "[ERROR: " ++ exc_type_name ++ "]", confidence := 0,
        processing_time := processing_time, timestamp := now,
        service := service_name, language := language,
        chunk_id := some chunk_id, is_final := true }
  | .success results =>
      match results with
      | [] =>
          { text := "", confidence := 0,
            processing_time := processing_time, timestamp := now,
            service := service_name, language := language,
            chunk_id := some chunk_id, is_final := true }
      | r :: _ =>
          match r.alternatives with
          | [] =>
              { text := "[ERROR: IndexError]", confidence := 0,
                processing_time := processing_time, timestamp := now,
                service := service_name, language := language,
                chunk_id := some chunk_id, is_final := true }
          | a :: rest =>
              let alts := rest.take 4
              { text := a.transcript, confidence := a.confidence,
                processing_time := processing_time, timestamp := now,
                service := service_name, language := language,
                alternatives := if alts = [] then none else some alts,
                chunk_id := some chunk_id, is_final := true }

/-- `transcribe_chunk` never propagates an exception: every call, the
failing ones included, returns an ordinary `TranscriptionResult`
(`Except.ok`).  This is the method's observable interface to callers. -/
def transcribe_chunkE (chunk_id : String) (call : RecognizeCall)
    (processing_time now : ℚ) (service_name language : String) :
    Except String TranscriptionResult :=
  Except.ok (transcribe_chunk chunk_id call processing_time now service_name language)

/-! ## Worker result decoration (consumers.py `_transcribe_buffer`) -/

/-- `(last_event.chunk_duration_ms or 0) / 1000.0` added to the last
frame's timestamp: Python's `x or 0` yields `0` both for `None` and for
`0`, which coincides with `Option.getD _ 0`. -/
def audio_end_time_of (e : AudioEvent) : ℚ :=
  e.timestamp + ((e.chunk_duration_ms.getD 0 : ℤ) : ℚ) / 1000

/-! ## Debug transcription aggregator (aggregator.py) -/

/-- The aggregator state touched by `_on_result` and
`print_transcription_summary`.  `prints_done` counts executed summary
prints (the code performs them after releasing the lock; the count per
call is the loop's `prints_to_do`). -/
structure AggState where
  results : List TranscriptionResult
  print_interval_seconds : ℚ
  coverage_start_time : Option ℚ
  latest_end_time : Option ℚ
  next_print_threshold_seconds : ℚ
  prints_done : Nat
deriving DecidableEq, Repr

/-- State after `DebugTranscriptionAggregator.__init__`:
`print_interval_seconds = 5.0`, both coverage endpoints `None`, first
threshold at one interval. -/
def initAgg : AggState :=
  { results := [], print_interval_seconds := 5,
    coverage_start_time := none, latest_end_time := none,
    next_print_threshold_seconds := 5, prints_done := 0 }

/-- The `while covered >= self.next_print_threshold_seconds` loop of
`_on_result`: counts the prints to do and advances the threshold by one
interval each turn.  The loop only terminates for a positive step, so the
guard carries that side condition (every reachable state has step 5). -/
def printLoop (step covered threshold : ℚ) : Nat × ℚ :=
  if h : 0 < step ∧ threshold ≤ covered then
    let r := printLoop step covered (threshold + step)
    (r.1 + 1, r.2)
  else
    (0, threshold)
termination_by (⌈(covered + step - threshold) / step⌉).toNat
decreasing_by
  have hs : (0:ℚ) < step := h.1
  have h2 : (covered + step - threshold) / step
      = (covered - threshold) / step + 1 := by
    rw [show covered + step - threshold = (covered - threshold) + step by ring,
      add_div, div_self (ne_of_gt hs)]
  have h3 : covered + step - (threshold + step) = covered - threshold := by ring
  have h4 : (0:ℚ) ≤ (covered - threshold) / step :=
    div_nonneg (by linarith [h.2]) hs.le
  have h5 : (0:ℤ) ≤ ⌈(covered - threshold) / step⌉ := Int.ceil_nonneg h4
  have h6 : ⌈(covered + step - threshold) / step⌉
      = ⌈(covered - threshold) / step⌉ + 1 := by
    rw [h2, Int.ceil_add_one]
  rw [h3, h6]
  omega

/-- `DebugTranscriptionAggregator._on_result`: append the result; when both
audio timestamps are present, initialise `coverage_start_time` from the
first such result, raise `latest_end_time` to the maximum end seen, and
run the threshold loop; the recorded prints are then executed outside the
lock. -/
def agg_on_result (s : AggState) (r : TranscriptionResult) : AggState :=
  let s1 : AggState := { s with results := s.results ++ [r] }
  match r.audio_start_time, r.audio_end_time with
  | some a, some b =>
      let cov : ℚ :=
        match s1.coverage_start_time with
        | none => a
        | some c => c
      let lat : ℚ :=
        match s1.latest_end_time with
        | none => b
        | some l => if l < b then b else l
      let covered : ℚ := lat - cov
      let loopOut :=
        printLoop s1.print_interval_seconds covered s1.next_print_threshold_seconds
      { s1 with
        coverage_start_time := some cov,
        latest_end_time := some lat,
        next_print_threshold_seconds := loopOut.2,
        prints_done := s1.prints_done + loopOut.1 }
  | _, _ => s1

/-- Deliver a sequence of results to the aggregator handler, in order. -/
def runAgg (s : AggState) (rs : List TranscriptionResult) : AggState :=
  rs.foldl agg_on_result s

/-- `DebugTranscriptionAggregator.shutdown`: unsubscribes and then calls
`print_transcription_summary()` exactly once, unconditionally. -/
def agg_shutdown (s : AggState) : AggState :=
  { s with prints_done := s.prints_done + 1 }

/-- The first result carrying both audio timestamps determines
`coverage_start_time` (the code initialises it only when it is `None`). -/
def firstCoveredStart (rs : List TranscriptionResult) : Option ℚ :=
  match rs with
  | [] => none
  | r :: rest =>
      match r.audio_start_time, r.audio_end_time with
      | some a, some _ => some a
      | _, _ => firstCoveredStart rest

/-- One step of the running maximum of `audio_end_time` over results
carrying both audio timestamps, exactly as the handler folds it (strict
comparison, ties keep the incumbent). -/
def maxEndStep (acc : Option ℚ) (r : TranscriptionResult) : Option ℚ :=
  match r.audio_start_time, r.audio_end_time with
  | some _, some b =>
      match acc with
      | none => some b
      | some l => some (if l < b then b else l)
  | _, _ => acc

/-- Maximum `audio_end_time` over the results carrying both audio
timestamps. -/
def maxCoveredEnd (rs : List TranscriptionResult) : Option ℚ :=
  rs.foldl maxEndStep none

/-! ## Heap-cell model of the consumer handler (for aliasing claims)

The Python accumulators `self.audio_buffer` (a `bytearray`) and
`self.audio_events` (a `list`) are mutable objects: `extend`/`append`
mutate them in place, and `_copy_and_clear_audio_buffer` first takes value
copies (`self.audio_events.copy()`, `bytes(self.audio_buffer)`) for the
task and then clears the *same* objects in place (`.clear()`), never
rebinding `self.audio_buffer` / `self.audio_events` to new objects.  To
state aliasing properties this model makes object identity explicit:
cells live in two heaps (byte cells, event-list cells) and the consumer
fields hold cell indices.  A dispatched task stores the values the copy
took, exactly as in the source. -/

/-- Heap-level consumer state.  `bufRef` / `eventsRef` are the identities
of the `bytearray` and `list` objects bound to `self.audio_buffer` and
`self.audio_events`. -/
structure HConsumer where
  trigger_chunks : Nat
  byteHeap : List (List Nat)
  eventHeap : List (List AudioEvent)
  bufRef : Nat
  eventsRef : Nat
  chunks_in_buffer : Nat
  tasks : List TranscriptionTask
  shutdown_is_set : Bool
deriving DecidableEq, Repr

/-- Contents of the `bytearray` object `self.audio_buffer` points at. -/
def HConsumer.readBuf (s : HConsumer) : List Nat :=
  s.byteHeap.getD s.bufRef []

/-- Contents of the `list` object `self.audio_events` points at. -/
def HConsumer.readEvents (s : HConsumer) : List AudioEvent :=
  s.eventHeap.getD s.eventsRef []

/-- `__init__` at heap level: one fresh empty `bytearray` cell and one
fresh empty `list` cell. -/
def initHConsumer (trigger_chunks : Nat) : HConsumer :=
  { trigger_chunks := trigger_chunks, byteHeap := [[]], eventHeap := [[]],
    bufRef := 0, eventsRef := 0, chunks_in_buffer := 0, tasks := [],
    shutdown_is_set := false }

/-- The flush condition of `on_audio_chunk` evaluated on the post-append
counters (`should_transcribe_target or should_transcribe_final`). -/
def flushCond (trigger_chunks cnt1 : Nat) (final : Bool) : Prop :=
  trigger_chunks ≤ cnt1 ∨ (final = true ∧ 0 < cnt1)

instance (trigger_chunks cnt1 : Nat) (final : Bool) :
    Decidable (flushCond trigger_chunks cnt1 final) := by
  unfold flushCond; infer_instance

/-- `on_audio_chunk` at heap level.  Appending writes through the existing
cells (`extend` / `append` mutate in place); the flush branch reads the
cell contents as values for the task (`.copy()` / `bytes(...)`) and then
writes `[]` through the very same cell indices (`.clear()` keeps object
identity — no fresh cell is allocated). -/
def h_on_audio_chunk (s : HConsumer) (event : AudioEvent) : HConsumer :=
  if s.shutdown_is_set then s
  else
    let s1 : HConsumer :=
      { s with
        eventHeap := s.eventHeap.set s.eventsRef (s.readEvents ++ [event]),
        byteHeap := s.byteHeap.set s.bufRef (s.readBuf ++ event.audio_data),
        chunks_in_buffer :=
          if 0 < event.audio_data.length then s.chunks_in_buffer + 1
          else s.chunks_in_buffer }
    if flushCond s1.trigger_chunks s1.chunks_in_buffer event.final then
      { s1 with
        tasks :=
          s1.tasks ++
            [{ audio_events := s1.readEvents, audio_buffer := s1.readBuf,
               is_final := event.final }],
        eventHeap := s1.eventHeap.set s1.eventsRef [],
        byteHeap := s1.byteHeap.set s1.bufRef [],
        chunks_in_buffer := 0 }
    else s1

/-- Deliver a sequence of frames to the heap-level handler, in order. -/
def runHConsumer (s : HConsumer) (fs : List AudioEvent) : HConsumer :=
  fs.foldl h_on_audio_chunk s

/-! ## Counting lemmas for the trigger policy (claim C1) -/

/-- One non-final frame: the counter stays below `trigger_chunks` and the
weighted quantity `chunks_in_buffer + trigger_chunks · #tasks` grows by one
exactly on a non-empty frame. -/
theorem on_audio_chunk_nonfinal_count (k : Nat) (hk : 0 < k)
    (s : ConsumerState) (f : AudioEvent) (hf : f.final = false)
    (htc : s.trigger_chunks = k) (hsd : s.shutdown_is_set = false)
    (hcnt : s.chunks_in_buffer < k) :
    (on_audio_chunk s f).trigger_chunks = k ∧
    (on_audio_chunk s f).shutdown_is_set = false ∧
    (on_audio_chunk s f).chunks_in_buffer < k ∧
    (on_audio_chunk s f).chunks_in_buffer
        + k * (on_audio_chunk s f).task_queue.length
      = s.chunks_in_buffer + k * s.task_queue.length
        + (if 0 < f.audio_data.length then 1 else 0) := by
  unfold on_audio_chunk
  rw [hsd, hf]
  by_cases hd : 0 < f.audio_data.length
  · simp only [hd, if_true, if_pos, Bool.false_eq_true, false_and, or_false,
      if_false]
    by_cases hfl : k ≤ s.chunks_in_buffer + 1
    · have hk1 : s.chunks_in_buffer + 1 = k := by omega
      simp only [htc, hfl, if_true, List.length_append, List.length_cons,
        List.length_nil]
      refine ⟨trivial, trivial, hk, ?_⟩
      rw [Nat.mul_add, Nat.mul_one]
      omega
    · simp only [htc, hfl, if_false]
      refine ⟨trivial, trivial, by omega, by omega⟩
  · simp only [hd, if_false, Bool.false_eq_true, false_and, or_false]
    have hfl : ¬ (k ≤ s.chunks_in_buffer) := by omega
    simp only [htc, hfl, if_false]
    exact ⟨trivial, trivial, hcnt, by omega⟩

/-- Folding the handler over non-final frames: the invariant
`chunks_in_buffer + k · #tasks = #(non-empty frames so far)` with the
counter below `k`. -/
theorem runConsumer_nonfinal_count (k : Nat) (hk : 0 < k)
    (fs : List AudioEvent) :
    ∀ s : ConsumerState, (∀ f ∈ fs, f.final = false) →
    s.trigger_chunks = k → s.shutdown_is_set = false →
    s.chunks_in_buffer < k →
    (runConsumer s fs).trigger_chunks = k ∧
    (runConsumer s fs).shutdown_is_set = false ∧
    (runConsumer s fs).chunks_in_buffer < k ∧
    (runConsumer s fs).chunks_in_buffer
        + k * (runConsumer s fs).task_queue.length
      = s.chunks_in_buffer + k * s.task_queue.length + nonEmptyCount fs := by
  induction fs with
  | nil =>
      intro s _ htc hsd hcnt
      exact ⟨htc, hsd, hcnt, by simp [runConsumer, nonEmptyCount]⟩
  | cons f rest ih =>
      intro s hnf htc hsd hcnt
      have hstep := on_audio_chunk_nonfinal_count k hk s f
        (hnf f (List.mem_cons_self f rest)) htc hsd hcnt
      have hrest := ih (on_audio_chunk s f)
        (fun g hg => hnf g (List.mem_cons_of_mem f hg))
        hstep.1 hstep.2.1 hstep.2.2.1
      have hrun : runConsumer s (f :: rest)
          = runConsumer (on_audio_chunk s f) rest := rfl
      rw [hrun]
      refine ⟨hrest.1, hrest.2.1, hrest.2.2.1, ?_⟩
      have hcount : nonEmptyCount (f :: rest)
          = (if 0 < f.audio_data.length then 1 else 0) + nonEmptyCount rest := by
        by_cases hd : 0 < f.audio_data.length <;>
          simp [nonEmptyCount, List.filter, hd, Nat.add_comm]
      rw [hrest.2.2.2, hstep.2.2.2, hcount]
      ring

/-- One final frame: with `0 < trigger_chunks` the flush condition reduces
to the post-append counter being positive, so exactly one extra task is
enqueued iff the buffer was non-empty (counting the final frame itself). -/
theorem on_audio_chunk_final_count (k : Nat) (hk : 0 < k)
    (s : ConsumerState) (g : AudioEvent) (hg : g.final = true)
    (htc : s.trigger_chunks = k) (hsd : s.shutdown_is_set = false) :
    (on_audio_chunk s g).task_queue.length
      = s.task_queue.length
        + (if 0 < s.chunks_in_buffer
              + (if 0 < g.audio_data.length then 1 else 0) then 1 else 0) := by
  unfold on_audio_chunk
  rw [hsd, hg]
  simp only [Bool.false_eq_true, if_false, true_and, htc]
  by_cases hd : 0 < g.audio_data.length
  · simp only [hd, if_true]
    have hpos : 0 < s.chunks_in_buffer + 1 := Nat.succ_pos _
    by_cases hfl : k ≤ s.chunks_in_buffer + 1
    · simp only [hfl, true_or, if_true]
      simp [hpos]
    · simp only [hfl, false_or, hpos, if_true]
      simp [hpos]
  · simp only [hd, if_false, Nat.add_zero]
    by_cases hpos : 0 < s.chunks_in_buffer
    · simp only [hpos, or_true, if_true]
      simp [hpos]
    · have hc0 : ¬ (k ≤ s.chunks_in_buffer) := by omega
      simp only [hc0, hpos, or_false, false_or, if_false]
      simp [hpos]

/-- C1: after `N` non-empty, non-final frames the dispatched-task count is
`⌊N/k⌋`; after a final frame it is `⌈N/k⌉` (written as
`N/k + (1 iff N % k ≠ 0)`, `N` now counting the final frame too). -/
theorem c1_trigger_task_count (k : Nat) (hk : 0 < k) (fs : List AudioEvent)
    (hnf : ∀ f ∈ fs, f.final = false) (g : AudioEvent) (hg : g.final = true) :
    (runConsumer (initConsumer k) fs).task_queue.length
        = nonEmptyCount fs / k ∧
    (runConsumer (initConsumer k) (fs ++ [g])).task_queue.length
        = nonEmptyCount (fs ++ [g]) / k
          + (if nonEmptyCount (fs ++ [g]) % k = 0 then 0 else 1) := by
  have hinv := runConsumer_nonfinal_count k hk fs (initConsumer k) hnf
    rfl rfl hk
  set s := runConsumer (initConsumer k) fs with hs
  have hbase : s.chunks_in_buffer + k * s.task_queue.length
      = nonEmptyCount fs := by
    have := hinv.2.2.2
    simpa [initConsumer] using this
  have hdm := (Nat.div_mod_unique (a := nonEmptyCount fs)
    (d := s.task_queue.length) (c := s.chunks_in_buffer) hk).mpr
    ⟨hbase, hinv.2.2.1⟩
  constructor
  · exact hdm.1.symm
  · have hrun2 : runConsumer (initConsumer k) (fs ++ [g])
        = on_audio_chunk s g := by
      rw [hs]
      simp [runConsumer, List.foldl_append]
    rw [hrun2, on_audio_chunk_final_count k hk s g hg hinv.1 hinv.2.1]
    have hcount2 : nonEmptyCount (fs ++ [g])
        = nonEmptyCount fs + (if 0 < g.audio_data.length then 1 else 0) := by
      by_cases hd : 0 < g.audio_data.length <;>
        simp [nonEmptyCount, List.filter_append, hd]
    rw [hcount2, ← hbase]
    set c := s.chunks_in_buffer with hc
    set q := s.task_queue.length with hq
    have hclt : c < k := hinv.2.2.1
    by_cases hd : 0 < g.audio_data.length
    · have hpos1 : 0 < c + 1 := Nat.succ_pos c
      simp only [hd, if_true, hpos1]
      by_cases hck : c + 1 = k
      · have hdm2 := (Nat.div_mod_unique (a := c + k * q + 1)
          (d := q + 1) (c := 0) hk).mpr
          ⟨by rw [Nat.mul_add, Nat.mul_one]; omega, hk⟩
        rw [hdm2.1, hdm2.2]
        simp
      · have hdm2 := (Nat.div_mod_unique (a := c + k * q + 1)
          (d := q) (c := c + 1) hk).mpr ⟨by ring, by omega⟩
        rw [hdm2.1, hdm2.2]
        simp
    · simp only [hd, if_false, Nat.add_zero]
      have hdm3 := (Nat.div_mod_unique (a := c + k * q)
        (d := q) (c := c) hk).mpr ⟨rfl, hclt⟩
      rw [hdm3.1, hdm3.2]
      by_cases hc0 : c = 0
      · simp [hc0]
      · have hcp : 0 < c := Nat.pos_of_ne_zero hc0
        simp [hc0, hcp]

/-! ## Byte-coverage lemmas (claim C2) -/

/-- One handler call: total bytes (dispatched plus still buffered) grow by
exactly the frame's pcm, and an empty counter means an empty buffer. -/
theorem on_audio_chunk_bytes (s : ConsumerState) (f : AudioEvent)
    (hsd : s.shutdown_is_set = false)
    (hemp : s.chunks_in_buffer = 0 → s.audio_buffer = []) :
    (on_audio_chunk s f).shutdown_is_set = false ∧
    ((on_audio_chunk s f).chunks_in_buffer = 0 →
      (on_audio_chunk s f).audio_buffer = []) ∧
    dispatchedBytes (on_audio_chunk s f) ++ (on_audio_chunk s f).audio_buffer
      = dispatchedBytes s ++ s.audio_buffer ++ f.audio_data := by
  unfold on_audio_chunk
  rw [hsd]
  simp only [Bool.false_eq_true, if_false]
  by_cases hd : 0 < f.audio_data.length
  · simp only [hd, if_true]
    by_cases hfl : s.trigger_chunks ≤ s.chunks_in_buffer + 1 ∨
        (f.final = true ∧ 0 < s.chunks_in_buffer + 1)
    · simp only [hfl, if_true]
      refine ⟨by simp, fun _ => by simp, ?_⟩
      simp [dispatchedBytes, List.append_assoc]
    · simp only [hfl, if_false]
      refine ⟨by simp, ?_, ?_⟩
      · intro h
        exact absurd h (Nat.succ_ne_zero _)
      · simp [dispatchedBytes, List.append_assoc]
  · have hdata : f.audio_data = [] := by
      cases hq : f.audio_data with
      | nil => rfl
      | cons x xs => rw [hq] at hd; exact absurd (Nat.succ_pos _) hd
    simp only [hd, if_false]
    by_cases hfl : s.trigger_chunks ≤ s.chunks_in_buffer ∨
        (f.final = true ∧ 0 < s.chunks_in_buffer)
    · simp only [hfl, if_true]
      refine ⟨by simp, fun _ => by simp, ?_⟩
      simp [dispatchedBytes, List.append_assoc]
    · simp only [hfl, if_false]
      refine ⟨by simp, ?_, ?_⟩
      · intro h
        simp [hemp h, hdata]
      · simp [dispatchedBytes, List.append_assoc]

/-- Folding the handler: dispatched bytes followed by the residual buffer
equal the initial bytes followed by every received frame's pcm. -/
theorem runConsumer_bytes (fs : List AudioEvent) :
    ∀ s : ConsumerState, s.shutdown_is_set = false →
    (s.chunks_in_buffer = 0 → s.audio_buffer = []) →
    (runConsumer s fs).shutdown_is_set = false ∧
    ((runConsumer s fs).chunks_in_buffer = 0 →
      (runConsumer s fs).audio_buffer = []) ∧
    dispatchedBytes (runConsumer s fs) ++ (runConsumer s fs).audio_buffer
      = dispatchedBytes s ++ s.audio_buffer ++ concatBytes fs := by
  induction fs with
  | nil =>
      intro s hsd hemp
      exact ⟨hsd, hemp, by simp [runConsumer, concatBytes]⟩
  | cons f rest ih =>
      intro s hsd hemp
      have hstep := on_audio_chunk_bytes s f hsd hemp
      have hrest := ih (on_audio_chunk s f) hstep.1 hstep.2.1
      have hrun : runConsumer s (f :: rest)
          = runConsumer (on_audio_chunk s f) rest := rfl
      rw [hrun]
      refine ⟨hrest.1, hrest.2.1, ?_⟩
      rw [hrest.2.2, hstep.2.2]
      simp [concatBytes, List.append_assoc]

/-- A final frame always leaves the accumulator empty: either the flush
fires, or nothing non-empty was buffered (so the buffer held no bytes). -/
theorem on_audio_chunk_final_buffer (s : ConsumerState) (g : AudioEvent)
    (hg : g.final = true) (hsd : s.shutdown_is_set = false)
    (hemp : s.chunks_in_buffer = 0 → s.audio_buffer = []) :
    (on_audio_chunk s g).audio_buffer = [] := by
  unfold on_audio_chunk
  rw [hsd, hg]
  simp only [Bool.false_eq_true, if_false, true_and]
  by_cases hd : 0 < g.audio_data.length
  · have hpos : 0 < s.chunks_in_buffer + 1 := Nat.succ_pos _
    simp only [hd, if_true, hpos, or_true, if_true]
  · have hdata : g.audio_data = [] := by
      cases hq : g.audio_data with
      | nil => rfl
      | cons x xs => rw [hq] at hd; exact absurd (Nat.succ_pos _) hd
    simp only [hd, if_false]
    by_cases hpos : 0 < s.chunks_in_buffer
    · simp only [hpos, or_true, if_true]
    · have hc0 : s.chunks_in_buffer = 0 := by omega
      by_cases hfl : s.trigger_chunks ≤ s.chunks_in_buffer ∨ 0 < s.chunks_in_buffer
      · simp only [hfl, if_true]
      · simp only [hfl, if_false]
        simp [hemp hc0, hdata]

/-! ## Specification of the aggregator's threshold loop (claims C7, C8) -/

/-- The threshold loop advances the threshold by one step per print, stops
strictly above `covered`, and overshoots by at most one step (unless it
never ran). -/
theorem printLoop_spec (step covered : ℚ) (hs : 0 < step) :
    ∀ threshold : ℚ,
    (printLoop step covered threshold).2
        = threshold + step * ((printLoop step covered threshold).1 : ℚ) ∧
    covered < (printLoop step covered threshold).2 ∧
    ((printLoop step covered threshold).1 = 0 ∧
        (printLoop step covered threshold).2 = threshold ∨
      (printLoop step covered threshold).2 - step ≤ covered) := by
  apply printLoop.induct step covered
  · intro x hx ih
    rw [printLoop.eq_def]
    rw [dif_pos hx]
    simp only
    refine ⟨?_, ih.2.1, ?_⟩
    · rw [ih.1]
      push_cast
      ring
    · rcases ih.2.2 with ⟨_, ht⟩ | ht
      · right
        rw [ht]
        linarith [hx.2]
      · right
        exact ht
  · intro x hx
    rw [printLoop.eq_def]
    rw [dif_neg hx]
    simp only [Nat.cast_zero, mul_zero, add_zero]
    refine ⟨by trivial, ?_, Or.inl ⟨by trivial, by trivial⟩⟩
    by_contra hcon
    push_neg at hcon
    exact hx ⟨hs, hcon⟩

/-- Invariant of the aggregator state: the threshold always sits one
interval above the prints already done, and the covered audio lies between
`5 · prints_done` and the next threshold. -/
def AggInv (s : AggState) : Prop :=
  s.print_interval_seconds = 5 ∧
  s.next_print_threshold_seconds = 5 * ((s.prints_done : ℚ) + 1) ∧
  match s.coverage_start_time, s.latest_end_time with
  | some c, some l =>
      l - c < s.next_print_threshold_seconds ∧
        (s.prints_done = 0 ∨ 5 * (s.prints_done : ℚ) ≤ l - c)
  | none, none => s.prints_done = 0
  | _, _ => False

/-- The freshly initialised aggregator satisfies the invariant. -/
theorem aggInv_init : AggInv initAgg := by
  refine ⟨rfl, by norm_num [initAgg], ?_⟩
  simp [initAgg]

/-- `_on_result` preserves the aggregator invariant. -/
theorem agg_on_result_inv (s : AggState) (r : TranscriptionResult)
    (h : AggInv s) : AggInv (agg_on_result s r) := by
  obtain ⟨hint, hth, hcov⟩ := h
  unfold agg_on_result
  cases hstart : r.audio_start_time with
  | none =>
      cases hend : r.audio_end_time with
      | none => exact ⟨hint, hth, hcov⟩
      | some b => exact ⟨hint, hth, hcov⟩
  | some a =>
      cases hend : r.audio_end_time with
      | none => exact ⟨hint, hth, hcov⟩
      | some b =>
          simp only
          cases hcs : s.coverage_start_time with
          | none =>
              cases hls : s.latest_end_time with
              | some l => rw [hcs, hls] at hcov; exact absurd hcov (by simp)
              | none =>
                  rw [hcs, hls] at hcov
                  have hspec := printLoop_spec s.print_interval_seconds (b - a)
                    (by rw [hint]; norm_num) s.next_print_threshold_seconds
                  rw [hint] at hspec ⊢
                  set n := (printLoop 5 (b - a)
                    s.next_print_threshold_seconds).1 with hn
                  refine ⟨rfl, ?_, ?_, ?_⟩
                  · rw [hspec.1, hth, hcov]
                    push_cast
                    ring
                  · exact hspec.2.1
                  · rcases hspec.2.2 with ⟨h0, _⟩ | hge
                    · left
                      simp [hcov, h0]
                    · right
                      rw [hspec.1, hth, hcov] at hge ⊢
                      push_cast at hge ⊢
                      linarith
          | some c =>
              cases hls : s.latest_end_time with
              | none => rw [hcs, hls] at hcov; exact absurd hcov (by simp)
              | some l =>
                  rw [hcs, hls] at hcov
                  obtain ⟨hlt, hlo⟩ := hcov
                  set l2 : ℚ := if l < b then b else l with hl2
                  have hll2 : l ≤ l2 := by
                    rw [hl2]
                    split_ifs with hb
                    · exact le_of_lt hb
                    · exact le_refl l
                  have hspec := printLoop_spec s.print_interval_seconds (l2 - c)
                    (by rw [hint]; norm_num) s.next_print_threshold_seconds
                  rw [hint] at hspec ⊢
                  set n := (printLoop 5 (l2 - c)
                    s.next_print_threshold_seconds).1 with hn
                  refine ⟨rfl, ?_, ?_, ?_⟩
                  · rw [hspec.1, hth]
                    push_cast
                    ring
                  · exact hspec.2.1
                  · rcases hspec.2.2 with ⟨h0, _⟩ | hge
                    · rw [h0, Nat.add_zero]
                      rcases hlo with h0' | hle
                      · exact Or.inl h0'
                      · right
                        have : l - c ≤ l2 - c := by linarith
                        linarith
                    · right
                      rw [hspec.1, hth] at hge
                      push_cast at hge ⊢
                      linarith

/-- The invariant holds after any run from the fresh aggregator. -/
theorem runAgg_inv (rs : List TranscriptionResult) :
    ∀ s : AggState, AggInv s → AggInv (runAgg s rs) := by
  induction rs with
  | nil => intro s h; exact h
  | cons r rest ih =>
      intro s h
      exact ih (agg_on_result s r) (agg_on_result_inv s r h)

/-- Field-level description of one `_on_result` call: how the two coverage
endpoints move. -/
theorem agg_on_result_fields (s : AggState) (r : TranscriptionResult) :
    (agg_on_result s r).coverage_start_time
        = (match r.audio_start_time, r.audio_end_time with
           | some a, some _ => some (s.coverage_start_time.getD a)
           | _, _ => s.coverage_start_time) ∧
    (agg_on_result s r).latest_end_time = maxEndStep s.latest_end_time r := by
  unfold agg_on_result maxEndStep
  cases hstart : r.audio_start_time with
  | none => cases hend : r.audio_end_time <;> exact ⟨rfl, rfl⟩
  | some a =>
      cases hend : r.audio_end_time with
      | none => exact ⟨rfl, rfl⟩
      | some b =>
          simp only
          cases hcs : s.coverage_start_time <;>
            cases hls : s.latest_end_time <;> simp [Option.getD]

/-- Running the aggregator: `coverage_start_time` keeps its first value
and `latest_end_time` is the running maximum fold. -/
theorem runAgg_fields (rs : List TranscriptionResult) :
    ∀ s : AggState,
    (runAgg s rs).coverage_start_time
        = (match s.coverage_start_time with
           | some c => some c
           | none => firstCoveredStart rs) ∧
    (runAgg s rs).latest_end_time = rs.foldl maxEndStep s.latest_end_time := by
  induction rs with
  | nil =>
      intro s
      cases hcs : s.coverage_start_time <;>
        simp [runAgg, hcs, firstCoveredStart]
  | cons r rest ih =>
      intro s
      have hstep := agg_on_result_fields s r
      have hrest := ih (agg_on_result s r)
      have hrun : runAgg s (r :: rest) = runAgg (agg_on_result s r) rest := rfl
      rw [hrun]
      constructor
      · rw [hrest.1, hstep.1]
        cases hstart : r.audio_start_time with
        | none =>
            cases hend : r.audio_end_time <;>
              cases hcs : s.coverage_start_time <;>
                simp [firstCoveredStart, hstart, hend]
        | some a =>
            cases hend : r.audio_end_time with
            | none =>
                cases hcs : s.coverage_start_time <;>
                  simp [firstCoveredStart, hstart, hend]
            | some b =>
                cases hcs : s.coverage_start_time <;>
                  simp [firstCoveredStart, hstart, hend, Option.getD]
      · rw [hrest.2, hstep.2]
        simp [List.foldl_cons]

/-! ## Heap-model lemmas (claim C9) -/

/-- Reading back the cell just written. -/
theorem getD_set_self {α : Type} (l : List α) (i : Nat) (x d : α)
    (h : i < l.length) : (l.set i x).getD i d = x := by
  simp [List.getD, List.getElem?_set_self, h]

/-- One heap-level handler call only appends to the dispatched-task list. -/
theorem h_on_audio_chunk_tasks_grow (s : HConsumer) (f : AudioEvent) :
    ∃ ts : List TranscriptionTask,
      (h_on_audio_chunk s f).tasks = s.tasks ++ ts := by
  unfold h_on_audio_chunk
  by_cases hsd : s.shutdown_is_set
  · exact ⟨[], by simp [hsd]⟩
  · simp only [hsd, Bool.false_eq_true, if_false]
    split_ifs <;>
      first
        | exact ⟨_, rfl⟩
        | exact ⟨[], by simp⟩

/-- Any run of the heap-level handler only appends tasks. -/
theorem runHConsumer_tasks_grow (fs : List AudioEvent) :
    ∀ s : HConsumer, ∃ ts : List TranscriptionTask,
      (runHConsumer s fs).tasks = s.tasks ++ ts := by
  induction fs with
  | nil => intro s; exact ⟨[], by simp [runHConsumer]⟩
  | cons f rest ih =>
      intro s
      obtain ⟨ts1, h1⟩ := h_on_audio_chunk_tasks_grow s f
      obtain ⟨ts2, h2⟩ := ih (h_on_audio_chunk s f)
      refine ⟨ts1 ++ ts2, ?_⟩
      have hrun : runHConsumer s (f :: rest)
          = runHConsumer (h_on_audio_chunk s f) rest := rfl
      rw [hrun, h2, h1, List.append_assoc]

/-! ## Concrete fixtures for witnesses and counterexamples -/

/-- A non-empty, non-final frame (two pcm bytes). -/
def neFrame (i : Nat) : AudioEvent :=
  { chunk_id := "chunk", audio_data := [1, 2], timestamp := 0,
    sequence_number := i }

/-- An empty terminating frame (`final = true`, no pcm). -/
def finFrameEmpty : AudioEvent :=
  { chunk_id := "fin", audio_data := [], timestamp := 1,
    sequence_number := 99, final := true }

/-- A non-empty terminating frame. -/
def finFrame9 : AudioEvent :=
  { chunk_id := "fin9", audio_data := [9], timestamp := 2,
    sequence_number := 1, final := true }

/-- A single-byte non-final frame. -/
def c2Frame : AudioEvent :=
  { chunk_id := "c0", audio_data := [7], timestamp := 0,
    sequence_number := 0 }

/-- A transcription result with chosen audio timestamps. -/
def aggResult (a b : Option ℚ) : TranscriptionResult :=
  { text := "t", confidence := 1, processing_time := 0, timestamp := 0,
    service := "svc", audio_start_time := a, audio_end_time := b }

/-- With `trigger_chunks = 1` and one non-empty non-final frame repeated
`n` times, every frame flushes, so the queue log holds `n` tasks. -/
theorem runConsumer_replicate_length (n : Nat) (f : AudioEvent)
    (hne : 0 < f.audio_data.length) (hnf : f.final = false) :
    (runConsumer (initConsumer 1) (List.replicate n f)).task_queue.length
      = n := by
  have hnfall : ∀ g ∈ List.replicate n f, g.final = false := by
    intro g hg
    rw [List.eq_of_mem_replicate hg]
    exact hnf
  have h := runConsumer_nonfinal_count 1 (by norm_num) (List.replicate n f)
    (initConsumer 1) hnfall rfl rfl (by decide)
  have hcnt : (runConsumer (initConsumer 1)
      (List.replicate n f)).chunks_in_buffer = 0 := by omega
  have hN : nonEmptyCount (List.replicate n f) = n := by
    simp [nonEmptyCount, List.filter_replicate, hne]
  have heq := h.2.2.2
  rw [hcnt, hN] at heq
  simpa [initConsumer] using heq

/-! ## The claims -/

/-- C1: for a consumer with `trigger_chunks = k > 0`, after `N` non-empty
frames (interleaved with empty non-final frames) and no final frame,
exactly `⌊N/k⌋` tasks have been enqueued; after a final frame arrives,
exactly `⌈N/k⌉` tasks (one extra trailing task iff `N mod k ≠ 0`, none at
all when `N = 0`), where `N` counts every non-empty frame received,
the final one included. -/
theorem c1_trigger_task_count_claim (k : Nat) (hk : 0 < k)
    (fs : List AudioEvent) (hnf : ∀ f ∈ fs, f.final = false)
    (g : AudioEvent) (hg : g.final = true) :
    (runConsumer (initConsumer k) fs).task_queue.length
        = nonEmptyCount fs / k ∧
    (runConsumer (initConsumer k) (fs ++ [g])).task_queue.length
        = nonEmptyCount (fs ++ [g]) / k
          + (if nonEmptyCount (fs ++ [g]) % k = 0 then 0 else 1) :=
  c1_trigger_task_count k hk fs hnf g hg

/-- Witness for C1: three non-empty frames, `k = 2`, then an empty final
frame: `⌊3/2⌋ = 1` task before, `⌈3/2⌉ = 2` after. -/
theorem c1_trigger_task_count_claim_witness :
    (0 < 2 ∧ (∀ f ∈ [neFrame 0, neFrame 1, neFrame 2], f.final = false) ∧
      finFrameEmpty.final = true) ∧
    ((runConsumer (initConsumer 2)
        [neFrame 0, neFrame 1, neFrame 2]).task_queue.length
      = nonEmptyCount [neFrame 0, neFrame 1, neFrame 2] / 2 ∧
    (runConsumer (initConsumer 2)
        ([neFrame 0, neFrame 1, neFrame 2] ++ [finFrameEmpty])).task_queue.length
      = nonEmptyCount ([neFrame 0, neFrame 1, neFrame 2] ++ [finFrameEmpty]) / 2
        + (if nonEmptyCount
              ([neFrame 0, neFrame 1, neFrame 2] ++ [finFrameEmpty]) % 2 = 0
            then 0 else 1)) :=
  ⟨⟨by decide, by decide, by decide⟩,
    c1_trigger_task_count_claim 2 (by decide)
      [neFrame 0, neFrame 1, neFrame 2] (by decide) finFrameEmpty (by decide)⟩

/-- C2 counterexample: with `trigger_chunks = 2`, a single non-empty
frame is received but no task is dispatched, so the dispatched bytes
(empty) differ from the received bytes `[7]`. -/
theorem c2_counterexample :
    ¬ (dispatchedBytes (runConsumer (initConsumer 2) [c2Frame])
        = concatBytes [c2Frame]) := by
  decide

/-- C2 (amended): the dispatched bytes followed by the residual
accumulator equal the received bytes, with equality (no residual) whenever
the last received frame is final. -/
theorem c2_dispatched_bytes_with_residual (k : Nat) (fs : List AudioEvent) :
    dispatchedBytes (runConsumer (initConsumer k) fs)
        ++ (runConsumer (initConsumer k) fs).audio_buffer
      = concatBytes fs ∧
    (∀ fs0 : List AudioEvent, ∀ g : AudioEvent,
      fs = fs0 ++ [g] → g.final = true →
      dispatchedBytes (runConsumer (initConsumer k) fs) = concatBytes fs) := by
  constructor
  · have hbase := runConsumer_bytes fs (initConsumer k) rfl (fun _ => rfl)
    have h := hbase.2.2
    simpa [initConsumer, dispatchedBytes] using h
  · intro fs0 g hfs hg
    subst hfs
    have hpre := runConsumer_bytes fs0 (initConsumer k) rfl (fun _ => rfl)
    have hrun : runConsumer (initConsumer k) (fs0 ++ [g])
        = on_audio_chunk (runConsumer (initConsumer k) fs0) g := by
      simp [runConsumer, List.foldl_append]
    have hbuf : (runConsumer (initConsumer k) (fs0 ++ [g])).audio_buffer
        = [] := by
      rw [hrun]
      exact on_audio_chunk_final_buffer _ g hg hpre.1 hpre.2.1
    have h2 := (runConsumer_bytes (fs0 ++ [g]) (initConsumer k) rfl
      (fun _ => rfl)).2.2
    rw [hbuf] at h2
    simpa [initConsumer, dispatchedBytes] using h2

/-- Witness for C2 (amended): one non-empty frame then a non-empty final
frame, `k = 2`; both conjuncts at that input. -/
theorem c2_dispatched_bytes_with_residual_witness :
    (dispatchedBytes (runConsumer (initConsumer 2) ([neFrame 0] ++ [finFrame9]))
        ++ (runConsumer (initConsumer 2)
              ([neFrame 0] ++ [finFrame9])).audio_buffer
      = concatBytes ([neFrame 0] ++ [finFrame9])) ∧
    (dispatchedBytes (runConsumer (initConsumer 2) ([neFrame 0] ++ [finFrame9]))
      = concatBytes ([neFrame 0] ++ [finFrame9])) :=
  ⟨(c2_dispatched_bytes_with_residual 2 ([neFrame 0] ++ [finFrame9])).1,
    (c2_dispatched_bytes_with_residual 2 ([neFrame 0] ++ [finFrame9])).2
      [neFrame 0] finFrame9 rfl (by decide)⟩

/-- C3 counterexample: a shutdown whose queue never drains (every poll
sees unfinished tasks) still returns `True`, refuting the claimed
equivalence between the return value and the queue having drained. -/
theorem c3_counterexample :
    ¬ (((shutdownModel (fun _ => false) 30 4).returned = true)
        ↔ ((shutdownModel (fun _ => false) 30 4).drained_in_time = true)) := by
  decide

/-- C3 (amended): `shutdown` returns `True` unconditionally — whether or
not the queue drained within the timeout. -/
theorem c3_shutdown_always_returns_true (poll : Nat → Bool)
    (timeout_polls num_workers : Nat) :
    (shutdownModel poll timeout_polls num_workers).returned = true := rfl

/-- C4 counterexample: a successful call with zero hypotheses returns
`text = ""`, not the `"[NO_SPEECH_DETECTED]"` marker the claim requires. -/
theorem c4_counterexample :
    (transcribe_chunk "google_1" (RecognizeCall.success []) 1 0
        "Google Speech-to-Text" "en-US").text ≠ no_speech_marker ∧
    (transcribe_chunk "google_1" (RecognizeCall.success []) 1 0
        "Google Speech-to-Text" "en-US").text = "" ∧
    (transcribe_chunk "google_1" (RecognizeCall.success []) 1 0
        "Google Speech-to-Text" "en-US").confidence = 0 := by
  refine ⟨by decide, rfl, rfl⟩

/-- C4 (amended): with zero hypotheses the result carries `text = ""` and
`confidence = 0`; with at least one hypothesis (and a first alternative)
the result carries that alternative's transcript and confidence.  The
`"[NO_SPEECH_DETECTED]"` marker is never produced by the backend. -/
theorem c4_no_speech_text (chunk_id : String)
    (results : List SpeechRecognitionResult) (pt now : ℚ)
    (sn lg : String) :
    (results = [] →
      (transcribe_chunk chunk_id (RecognizeCall.success results)
          pt now sn lg).text = "" ∧
      (transcribe_chunk chunk_id (RecognizeCall.success results)
          pt now sn lg).confidence = 0) ∧
    (∀ (r : SpeechRecognitionResult) (rest : List SpeechRecognitionResult)
        (a : SpeechAlternative) (als : List SpeechAlternative),
      results = r :: rest → r.alternatives = a :: als →
      (transcribe_chunk chunk_id (RecognizeCall.success results)
          pt now sn lg).text = a.transcript ∧
      (transcribe_chunk chunk_id (RecognizeCall.success results)
          pt now sn lg).confidence = a.confidence) := by
  constructor
  · intro h
    subst h
    exact ⟨rfl, rfl⟩
  · intro r rest a als h1 h2
    subst h1
    simp [transcribe_chunk, h2]

/-- Witness for C4 (amended): the empty response, and a response with one
hypothesis whose first alternative is `("hello", 9/10)`. -/
theorem c4_no_speech_text_witness :
    ((transcribe_chunk "google_1" (RecognizeCall.success []) 1 0
        "Google Speech-to-Text" "en-US").text = "" ∧
     (transcribe_chunk "google_1" (RecognizeCall.success []) 1 0
        "Google Speech-to-Text" "en-US").confidence = 0) ∧
    ((transcribe_chunk "google_2"
        (RecognizeCall.success [⟨[⟨"hello", 9/10⟩]⟩]) 1 0
        "Google Speech-to-Text" "en-US").text = "hello" ∧
     (transcribe_chunk "google_2"
        (RecognizeCall.success [⟨[⟨"hello", 9/10⟩]⟩]) 1 0
        "Google Speech-to-Text" "en-US").confidence = 9/10) :=
  ⟨(c4_no_speech_text "google_1" [] 1 0 "Google Speech-to-Text" "en-US").1
      rfl,
    (c4_no_speech_text "google_2" [⟨[⟨"hello", 9/10⟩]⟩] 1 0
        "Google Speech-to-Text" "en-US").2
      ⟨[⟨"hello", 9/10⟩]⟩ [] ⟨"hello", 9/10⟩ [] rfl rfl⟩

/-- C5 counterexample: a failing call (deadline exceeded) does not raise —
it returns an ordinary `TranscriptionResult` whose text is the error
marker, refuting "a failing call never returns an ordinary
TranscriptionResult". -/
theorem c5_counterexample :
    transcribe_chunkE "google_7" (RecognizeCall.failure "DeadlineExceeded")
        1 0 "Google Speech-to-Text" "en-US"
      = Except.ok
          { text := "[ERROR: DeadlineExceeded]", confidence := 0,
            processing_time := 1, timestamp := 0,
            service := "Google Speech-to-Text", language := "en-US",
            chunk_id := some "google_7" } := rfl

/-- C5 (amended): every backend failure is caught inside
`transcribe_chunk` and returned as an ordinary result with
`text = "[ERROR: <type>]"`, `confidence = 0` and the generated chunk id;
no exception propagates to the caller. -/
theorem c5_failure_returns_error_result (chunk_id exc_type_name : String)
    (pt now : ℚ) (sn lg : String) :
    transcribe_chunkE chunk_id (RecognizeCall.failure exc_type_name)
        pt now sn lg
      = Except.ok
          { text := "[ERROR: " ++ exc_type_name ++ "]", confidence := 0,
            processing_time := pt, timestamp := now, service := sn,
            language := lg, chunk_id := some chunk_id } := rfl

/-- C6 counterexample: with `trigger_chunks = 1` and no worker having
dequeued, 17 enqueued tasks exceed the recommended capacity
`max_workers · 4 = 16`, so no capacity bound is enforced. -/
theorem c6_counterexample :
    4 * 4 < (runConsumer (initConsumer 1)
        (List.replicate 17 (neFrame 0))).task_queue.length := by
  rw [runConsumer_replicate_length 17 (neFrame 0) (by decide) rfl]
  norm_num

/-- C6 (amended): the task queue is unbounded — `queue.Queue()` is created
with `maxsize = 0` (infinite) and the enqueue log grows without bound, one
task per frame at `trigger_chunks = 1`. -/
theorem c6_queue_unbounded :
    task_queue_maxsize = 0 ∧
    ∀ n : Nat, (runConsumer (initConsumer 1)
        (List.replicate n (neFrame 0))).task_queue.length = n :=
  ⟨rfl, fun n => runConsumer_replicate_length n (neFrame 0) (by decide) rfl⟩

/-- C7 counterexample: a first result covering `[10, 11]` followed by one
covering `[0, 1]` leaves `coverage_start_time = 10`, not the minimum `0`
the claim requires. -/
theorem c7_counterexample :
    ¬ ((runAgg initAgg
          [aggResult (some 10) (some 11),
           aggResult (some 0) (some 1)]).coverage_start_time
        = some (min (10:ℚ) 0)) := by
  rw [(runAgg_fields
    [aggResult (some 10) (some 11), aggResult (some 0) (some 1)]
    initAgg).1]
  simp [initAgg, firstCoveredStart, aggResult]

/-- C7 (amended): `coverage_start_time` equals the `audio_start_s` of the
*first* result carrying both timestamps (it is only initialised, never
lowered by later, earlier-starting results); `latest_end_time` equals the
maximum `audio_end_s` over all such results. -/
theorem c7_coverage_endpoints (rs : List TranscriptionResult) :
    (runAgg initAgg rs).coverage_start_time = firstCoveredStart rs ∧
    (runAgg initAgg rs).latest_end_time = maxCoveredEnd rs := by
  have h := runAgg_fields rs initAgg
  constructor
  · rw [h.1]
    rfl
  · rw [h.2]
    rfl


/-- C8: with covered audio `C = cover_end − cover_start ≥ 0`, the run
performs exactly `⌊C / 5⌋` periodic summary prints (`print_step_s = 5`),
and `shutdown` performs exactly one more. -/
theorem c8_print_counts (rs : List TranscriptionResult) (cs ce : ℚ)
    (h1 : (runAgg initAgg rs).coverage_start_time = some cs)
    (h2 : (runAgg initAgg rs).latest_end_time = some ce)
    (h3 : cs ≤ ce) :
    (runAgg initAgg rs).prints_done = (⌊(ce - cs) / 5⌋).toNat ∧
    (agg_shutdown (runAgg initAgg rs)).prints_done
      = (runAgg initAgg rs).prints_done + 1 := by
  have hinv := runAgg_inv rs initAgg aggInv_init
  obtain ⟨hint, hth, hcov⟩ := hinv
  rw [h1, h2] at hcov
  rw [hth] at hcov
  set p := (runAgg initAgg rs).prints_done with hp
  obtain ⟨hlt, hlo⟩ := hcov
  refine ⟨?_, rfl⟩
  have hfloor : ⌊(ce - cs) / 5⌋ = (p : ℤ) := by
    rw [Int.floor_eq_iff]
    refine ⟨?_, ?_⟩
    · rcases hlo with h0 | hle
      · rw [h0]
        push_cast
        exact div_nonneg (by linarith) (by norm_num)
      · rw [le_div_iff₀ (by norm_num : (0:ℚ) < 5)]
        push_cast
        linarith
    · rw [div_lt_iff₀ (by norm_num : (0:ℚ) < 5)]
      push_cast
      linarith
  rw [hfloor]
  simp

/-- Witness for C8: one result covering `[0, 12.8]`; the hypotheses are
checked concretely and the theorem applied there. -/
theorem c8_print_counts_witness :
    ((runAgg initAgg
        [aggResult (some 0) (some (64/5))]).coverage_start_time = some 0 ∧
     (runAgg initAgg
        [aggResult (some 0) (some (64/5))]).latest_end_time = some (64/5) ∧
     (0:ℚ) ≤ 64/5) ∧
    ((runAgg initAgg [aggResult (some 0) (some (64/5))]).prints_done
        = (⌊(((64:ℚ)/5) - 0) / 5⌋).toNat ∧
     (agg_shutdown
        (runAgg initAgg [aggResult (some 0) (some (64/5))])).prints_done
        = (runAgg initAgg [aggResult (some 0) (some (64/5))]).prints_done
            + 1) :=
  have hh1 : (runAgg initAgg
      [aggResult (some 0) (some (64/5))]).coverage_start_time = some 0 := by
    rw [(runAgg_fields [aggResult (some 0) (some (64/5))] initAgg).1]
    simp [initAgg, firstCoveredStart, aggResult]
  have hh2 : (runAgg initAgg
      [aggResult (some 0) (some (64/5))]).latest_end_time = some (64/5) := by
    rw [(runAgg_fields [aggResult (some 0) (some (64/5))] initAgg).2]
    simp [initAgg, maxEndStep, aggResult]
  ⟨⟨hh1, hh2, by norm_num⟩,
    c8_print_counts [aggResult (some 0) (some (64/5))] 0 (64/5) hh1 hh2
      (by norm_num)⟩

/-- C9: when a flush fires, the dispatched task captures the pre-flush
frame list and bytes *by value*; the consumer's own accumulator cells are
cleared in place, and no number of later handler calls can change the
captured task (no aliasing between the task and the live buffers). -/
theorem c9_flush_no_aliasing (s : HConsumer) (g : AudioEvent)
    (fs : List AudioEvent)
    (hsd : s.shutdown_is_set = false)
    (hbr : s.bufRef < s.byteHeap.length)
    (her : s.eventsRef < s.eventHeap.length)
    (hfl : flushCond s.trigger_chunks
        (if 0 < g.audio_data.length then s.chunks_in_buffer + 1
         else s.chunks_in_buffer) g.final) :
    (h_on_audio_chunk s g).tasks
        = s.tasks ++ [{ audio_events := s.readEvents ++ [g],
                        audio_buffer := s.readBuf ++ g.audio_data,
                        is_final := g.final }] ∧
    (h_on_audio_chunk s g).readBuf = [] ∧
    (h_on_audio_chunk s g).readEvents = [] ∧
    (runHConsumer (h_on_audio_chunk s g) fs).tasks.getD s.tasks.length
        { audio_events := [], audio_buffer := [], is_final := false }
      = { audio_events := s.readEvents ++ [g],
          audio_buffer := s.readBuf ++ g.audio_data,
          is_final := g.final } := by
  have hstep :
      (h_on_audio_chunk s g).tasks
          = s.tasks ++ [{ audio_events := s.readEvents ++ [g],
                          audio_buffer := s.readBuf ++ g.audio_data,
                          is_final := g.final }] ∧
      (h_on_audio_chunk s g).readBuf = [] ∧
      (h_on_audio_chunk s g).readEvents = [] := by
    unfold h_on_audio_chunk
    rw [hsd]
    simp only [Bool.false_eq_true, if_false]
    rw [if_pos hfl]
    refine ⟨?_, ?_, ?_⟩
    · simp only [HConsumer.readEvents, HConsumer.readBuf]
      rw [getD_set_self _ _ _ _ her, getD_set_self _ _ _ _ hbr]
    · simp only [HConsumer.readBuf]
      rw [getD_set_self]
      rw [List.length_set]
      exact hbr
    · simp only [HConsumer.readEvents]
      rw [getD_set_self]
      rw [List.length_set]
      exact her
  refine ⟨hstep.1, hstep.2.1, hstep.2.2, ?_⟩
  obtain ⟨ts, hts⟩ := runHConsumer_tasks_grow fs (h_on_audio_chunk s g)
  rw [hts, hstep.1]
  rw [List.getD_append _ _ _ _ (by simp)]
  rw [List.getD_append_right _ _ _ _ (le_refl _)]
  simp [List.getD]

/-- Witness for C9: fresh consumer with `trigger_chunks = 1`, one
non-empty frame triggering a flush, then one more frame delivered. -/
theorem c9_flush_no_aliasing_witness :
    ((initHConsumer 1).shutdown_is_set = false ∧
     (initHConsumer 1).bufRef < (initHConsumer 1).byteHeap.length ∧
     (initHConsumer 1).eventsRef < (initHConsumer 1).eventHeap.length ∧
     flushCond (initHConsumer 1).trigger_chunks
        (if 0 < (neFrame 0).audio_data.length
         then (initHConsumer 1).chunks_in_buffer + 1
         else (initHConsumer 1).chunks_in_buffer) (neFrame 0).final) ∧
    ((h_on_audio_chunk (initHConsumer 1) (neFrame 0)).tasks
        = (initHConsumer 1).tasks
            ++ [{ audio_events := (initHConsumer 1).readEvents ++ [neFrame 0],
                  audio_buffer :=
                    (initHConsumer 1).readBuf ++ (neFrame 0).audio_data,
                  is_final := (neFrame 0).final }] ∧
     (h_on_audio_chunk (initHConsumer 1) (neFrame 0)).readBuf = [] ∧
     (h_on_audio_chunk (initHConsumer 1) (neFrame 0)).readEvents = [] ∧
     (runHConsumer (h_on_audio_chunk (initHConsumer 1) (neFrame 0))
          [neFrame 1]).tasks.getD (initHConsumer 1).tasks.length
        { audio_events := [], audio_buffer := [], is_final := false }
      = { audio_events := (initHConsumer 1).readEvents ++ [neFrame 0],
          audio_buffer := (initHConsumer 1).readBuf ++ (neFrame 0).audio_data,
          is_final := (neFrame 0).final }) :=
  ⟨⟨rfl, by decide, by decide, by decide⟩,
    c9_flush_no_aliasing (initHConsumer 1) (neFrame 0) [neFrame 1] rfl
      (by decide) (by decide) (by decide)⟩

/-- C10: an `AudioEvent` built without an explicit duration derives
`duration_ms = int(len(pcm) / (rate · channels · 2) · 1000)` when `pcm` is
non-empty, keeps `duration_ms = None` when `pcm` is empty, and the worker's
`audio_end_time` computation treats an absent duration as zero
(`audio_end = timestamp`). -/
theorem c10_duration_and_end_time (cid : String) (pcm : List Nat) (ts : ℚ)
    (seq rate ch : Nat) (fin : Bool) :
    (pcm ≠ [] →
      (mkAudioEvent cid pcm ts seq rate ch none fin).chunk_duration_ms
        = some ⌊((pcm.length : ℚ) / ((rate : ℚ) * (ch : ℚ) * 2)) * 1000⌋) ∧
    (pcm = [] →
      (mkAudioEvent cid pcm ts seq rate ch none fin).chunk_duration_ms
        = none) ∧
    (∀ e : AudioEvent, e.chunk_duration_ms = none →
      audio_end_time_of e = e.timestamp) := by
  refine ⟨?_, ?_, ?_⟩
  · intro h
    simp [mkAudioEvent, h]
  · intro h
    simp [mkAudioEvent, h]
  · intro e he
    simp [audio_end_time_of, he]

/-- Witness for C10: a four-byte frame at 16 kHz mono, an empty frame, and
an event with no duration. -/
theorem c10_duration_and_end_time_witness :
    (([1, 2, 3, 4] : List Nat) ≠ [] ∧
      (mkAudioEvent "w" [1, 2, 3, 4] 0 0 16000 1 none false).chunk_duration_ms
        = some ⌊((([1, 2, 3, 4] : List Nat).length : ℚ)
            / ((16000 : ℚ) * (1 : ℚ) * 2)) * 1000⌋) ∧
    (mkAudioEvent "w2" [] 0 0 16000 1 none true).chunk_duration_ms = none ∧
    audio_end_time_of
        { chunk_id := "e", audio_data := [], timestamp := 3,
          sequence_number := 5 }
      = ({ chunk_id := "e", audio_data := [], timestamp := 3,
           sequence_number := 5 } : AudioEvent).timestamp :=
  ⟨⟨by decide,
      (c10_duration_and_end_time "w" [1, 2, 3, 4] 0 0 16000 1 false).1
        (by decide)⟩,
    (c10_duration_and_end_time "w2" [] 0 0 16000 1 true).2.1 rfl,
    (c10_duration_and_end_time "e" [] 3 5 16000 1 true).2.2
      { chunk_id := "e", audio_data := [], timestamp := 3,
        sequence_number := 5 } rfl⟩
